import Mathlib

/-!
# Verification of the MIAW chat backend (PSA_Test)

Shallow embedding of the backend logic of the MIAW (Messaging for In-App and
Web) chat integration: the Server-Sent-Event relay loop of
`MiawApiClient.subscribeEvents`, the token/session manager
(`getToken`, `generateContinuationToken`, `ensureContinuationToken`,
`sendMessage`, `closeConversation` in `src/app/lib/miawApiService.ts`),
and the Next.js API routes (session delete, session create, message post).

Text is modelled as `List Char` (the decoded text of the JS strings flowing
through the relay); stateful class fields are passed explicitly as a
`ClientState`; vendor HTTP calls are resolved against an explicit oracle
(`Vendor`) and recorded in a call log.
-/

namespace Miaw

/-! ## SSE relay (`MiawApiClient.subscribeEvents`, miawApiService.ts)

The relay keeps a text `buffer`, appends each upstream chunk
(`buffer += chunk.toString()`), splits on the event delimiter
(`const events = buffer.split('\n\n')`), keeps the final fragment as the
new buffer (`buffer = events.pop() || ''`), and for each remaining fragment
with truthy `eventData.trim()` enqueues `eventData + "\n\n"` downstream
(`controller.enqueue(new TextEncoder().encode(eventData + "\n\n"))`). -/

/-- The SSE event delimiter `"\n\n"` used by `buffer.split('\n\n')`. -/
def dd : List Char := ['\n', '\n']

/-- JS `String.prototype.split` with the two-character separator `"\n\n"`:
scan left to right, cutting at each non-overlapping occurrence of the
separator. `splitEvents l` models `l.split('\n\n')` on the decoded text. -/
def splitEvents : List Char → List (List Char)
  | [] => [[]]
  | [c] => [[c]]
  | c₁ :: c₂ :: rest =>
    if c₁ = '\n' ∧ c₂ = '\n' then
      [] :: splitEvents rest
    else
      match splitEvents (c₂ :: rest) with
      | [] => [[c₁]]
      | p :: ps => (c₁ :: p) :: ps

/-- Whether the text contains the delimiter `"\n\n"` as a substring. -/
def hasDelim : List Char → Bool
  | [] => false
  | [_] => false
  | c₁ :: c₂ :: rest => (c₁ = '\n' && c₂ = '\n') || hasDelim (c₂ :: rest)

/-- The whitespace characters stripped by JS `String.prototype.trim`
(WhiteSpace and LineTerminator code points). -/
def jsWhitespaceChars : List Char :=
  [' ', '\t', '\n', '\r', '\x0B', '\x0C', ' ', ' ', ' ',
   ' ', ' ', ' ', ' ', ' ', ' ', ' ',
   ' ', ' ', ' ', ' ', ' ', ' ', ' ',
   '　', '﻿']

def isJsWhitespace (c : Char) : Bool := jsWhitespaceChars.contains c

/-- Truthiness of `eventData.trim()`: the fragment has some
non-whitespace character. -/
def trimmedNonempty (l : List Char) : Bool :=
  l.any (fun c => !(isJsWhitespace c))

/-- The relay's state: the carry-over text buffer and the list of texts
enqueued downstream so far (each is UTF-8 encoded by `TextEncoder` at the
enqueue; we keep the text, whose encoding it determines). -/
structure RelayState where
  buffer : List Char
  sent : List (List Char)
deriving DecidableEq, Repr

/-- One round of the `response.data.on('data', ...)` handler in
`subscribeEvents`: append the chunk, split on `"\n\n"`, retain the last
fragment as the buffer, and enqueue every other fragment whose `trim()` is
truthy, re-framed as `eventData + "\n\n"`. -/
def processChunk (st : RelayState) (chunk : List Char) : RelayState :=
  let buf := st.buffer ++ chunk
  let events := splitEvents buf
  let newBuffer := (events.getLast?).getD []
  let complete := events.dropLast
  { buffer := newBuffer
    sent := st.sent ++ (complete.filter trimmedNonempty).map (fun e => e ++ dd) }

/-- Run the relay from its initial state (`let buffer = ''`, nothing sent)
over a sequence of upstream chunks. -/
def relayRun (chunks : List (List Char)) : RelayState :=
  chunks.foldl processChunk ⟨[], []⟩

/-- A complete SSE frame as it occurs between delimiters in this system:
it contains no `"\n\n"` (it is a single frame), does not end in a newline
(otherwise the terminating blank line would start inside it), and is not
blank (it has a non-whitespace character, so `eventData.trim()` is truthy
and the frame is forwarded rather than dropped). -/
def IsFrame (F : List Char) : Prop :=
  hasDelim F = false ∧ F.getLast? ≠ some '\n' ∧ trimmedNonempty F = true

instance (F : List Char) : Decidable (IsFrame F) := by
  unfold IsFrame; infer_instance

/-! ### Lemmas about the splitter -/

/-! ## Token/session manager (`MiawApiClient`, miawApiService.ts)

The client's mutable fields (`token`, `tokenExpiresAt`, `continuationToken`)
are passed explicitly as a `ClientState`; `none` models JS `null`.
Vendor HTTP calls are resolved against an explicit `Vendor` oracle and
recorded in a call log; thrown JS `Error`s become `Except.error` carrying
the error message. -/

/-- Truthiness of a JS `string | null` field (`null` and `''` are falsy). -/
def truthyS : Option String → Bool
  | none => false
  | some s => !(s == "")

/-- Truthiness of a JS `number | null` field (`null` and `0` are falsy). -/
def truthyI : Option Int → Bool
  | none => false
  | some n => !(n == 0)

/-- The client's mutable fields: `this.token`, `this.tokenExpiresAt` (ms
epoch), `this.continuationToken`. -/
structure ClientState where
  token : Option String
  tokenExpiresAt : Option Int
  continuationToken : Option String
deriving DecidableEq, Repr

/-- Vendor HTTP calls the client performs, with the Authorization header
value where a claim depends on it. -/
inductive Call where
  | accessToken
  | contToken (auth : String)
  | msgPost (auth : String)
  | closeDelete (auth : String)
deriving DecidableEq, Repr

/-- Outcome of the vendor's access-token endpoint as seen through
`generateNewToken`: a response carrying `accessToken`, a response without
one (no `errorCode` either), or a thrown/`errorCode` failure. -/
inductive TokenResp where
  | success (tok : String)
  | noToken
  | failure
deriving DecidableEq, Repr

/-- Outcome of the vendor's close-conversation DELETE as seen through
`axios.delete`: success, an axios error with HTTP status and status text,
or a non-axios throw. -/
inductive CloseResp where
  | ok
  | httpErr (status : Nat) (statusText : String)
  | jsErr
deriving DecidableEq, Repr

/-- The vendor oracle: what each endpoint would answer during the run.
`contResp` is the continuation-access-token GET (`.error` models an axios
throw, e.g. when no conversation exists yet); `msgResp` the message POST. -/
structure Vendor where
  tokenResp : TokenResp
  contResp : Except Unit String
  msgResp : Except Unit Unit
  closeResp : CloseResp

/-- `MiawApiClient.getToken` (miawApiService.ts lines 785-803): return the
cached token when `!forceRefresh && this.token && this.tokenExpiresAt &&
now < this.tokenExpiresAt - 300_000`; otherwise call `generateNewToken`
and cache the result for one hour, throwing when the vendor call fails or
the response has no token. -/
def getToken (st : ClientState) (resp : TokenResp) (now : Int)
    (forceRefresh : Bool) : Except String String × ClientState × List Call :=
  if !forceRefresh && truthyS st.token && truthyI st.tokenExpiresAt
      && decide (now < st.tokenExpiresAt.getD 0 - 300000) then
    (.ok (st.token.getD ""), st, [])
  else
    match resp with
    | .success tok =>
      (.ok tok,
       { st with token := some tok, tokenExpiresAt := some (now + 3600000) },
       [.accessToken])
    | .noToken => (.error "Failed to get valid access token", st, [.accessToken])
    | .failure =>
      (.error "Failed to generate MIAW access token", st, [.accessToken])

/-- `MiawApiClient.generateContinuationToken` (lines 859-876): build auth
headers from `getToken`, GET the continuation-access-token endpoint, store
the returned token via `setContinuationToken`; any error in the `try`
block becomes `Error('Failed to generate continuation token')`. -/
def generateContinuationToken (st : ClientState) (v : Vendor) (now : Int) :
    Except String String × ClientState × List Call :=
  match getToken st v.tokenResp now false with
  | (.error _, st₁, log) =>
    (.error "Failed to generate continuation token", st₁, log)
  | (.ok tok, st₁, log) =>
    match v.contResp with
    | .error _ =>
      (.error "Failed to generate continuation token", st₁,
       log ++ [.contToken ("Bearer " ++ tok)])
    | .ok ctok =>
      (.ok ctok, { st₁ with continuationToken := some ctok },
       log ++ [.contToken ("Bearer " ++ tok)])

/-- `MiawApiClient.ensureContinuationToken` (lines 879-885): no-op when
`this.continuationToken` is truthy; otherwise generate one and fail with
`'No continuation token available. Please start a session first.'` if the
field is still falsy afterwards. -/
def ensureContinuationToken (st : ClientState) (v : Vendor) (now : Int) :
    Except String Unit × ClientState × List Call :=
  if truthyS st.continuationToken then (.ok (), st, [])
  else
    match generateContinuationToken st v now with
    | (.error e, st₁, log) => (.error e, st₁, log)
    | (.ok _, st₁, log) =>
      if truthyS st₁.continuationToken then (.ok (), st₁, log)
      else
        (.error "No continuation token available. Please start a session first.",
         st₁, log)

/-- `getAuthHeadersWithContinuation` / `getAuthOnlyHeaderWithContinuation`
(lines 908-921): `this.continuationToken || await this.getToken()`, the
chosen token going into `Authorization: Bearer <token>` (the two header
builders differ only in the Content-Type entry, on which no claim
depends). -/
def getAuthWithContinuation (st : ClientState) (v : Vendor) (now : Int) :
    Except String String × ClientState × List Call :=
  if truthyS st.continuationToken then
    (.ok ("Bearer " ++ st.continuationToken.getD ""), st, [])
  else
    match getToken st v.tokenResp now false with
    | (.ok tok, st₁, log) => (.ok ("Bearer " ++ tok), st₁, log)
    | (.error e, st₁, log) => (.error e, st₁, log)

/-- `MiawApiClient.sendMessage` (lines 960-991): inside `try`, first
`ensureContinuationToken`, then build headers with
`getAuthHeadersWithContinuation`, then POST the message; any error becomes
`Error('Failed to send message')`. The POST body does not influence the
modelled behaviour and is omitted. -/
def sendMessage (st : ClientState) (v : Vendor) (now : Int) :
    Except String Unit × ClientState × List Call :=
  match ensureContinuationToken st v now with
  | (.error _, st₁, log) => (.error "Failed to send message", st₁, log)
  | (.ok _, st₁, log) =>
    match getAuthWithContinuation st₁ v now with
    | (.error _, st₂, log₂) => (.error "Failed to send message", st₂, log ++ log₂)
    | (.ok auth, st₂, log₂) =>
      match v.msgResp with
      | .ok _ => (.ok (), st₂, log ++ log₂ ++ [.msgPost auth])
      | .error _ =>
        (.error "Failed to send message", st₂, log ++ log₂ ++ [.msgPost auth])

/-- The error message `closeConversation` throws for an axios error:
`Failed to close conversation: ${status} ${statusText}`. -/
def closeErrMsg (status : Nat) (statusText : String) : String :=
  "Failed to close conversation: " ++ toString status ++ " " ++ statusText

/-- `MiawApiClient.closeConversation` (lines 1131-1154): inside `try`,
`ensureContinuationToken`, then DELETE the conversation with the
Authorization-only header; on an axios error rethrow
`Failed to close conversation: ${status} ${statusText}`, on any other
error `'Failed to close conversation'`. On success nothing else happens
(in particular the cached continuation token is NOT cleared here). -/
def closeConversation (st : ClientState) (v : Vendor) (now : Int) :
    Except String Unit × ClientState × List Call :=
  match ensureContinuationToken st v now with
  | (.error _, st₁, log) => (.error "Failed to close conversation", st₁, log)
  | (.ok _, st₁, log) =>
    match getAuthWithContinuation st₁ v now with
    | (.error _, st₂, log₂) =>
      (.error "Failed to close conversation", st₂, log ++ log₂)
    | (.ok auth, st₂, log₂) =>
      match v.closeResp with
      | .ok => (.ok (), st₂, log ++ log₂ ++ [.closeDelete auth])
      | .httpErr s stx =>
        (.error (closeErrMsg s stx), st₂, log ++ log₂ ++ [.closeDelete auth])
      | .jsErr =>
        (.error "Failed to close conversation", st₂,
         log ++ log₂ ++ [.closeDelete auth])

/-! ## API routes -/

/-- JS `String.prototype.includes`: substring containment. -/
def strIncludes (s sub : String) : Prop := sub.toList <:+: s.toList

instance (s sub : String) : Decidable (strIncludes s sub) := by
  unfold strIncludes; exact List.decidableInfix _ _

/-- The parsed value of the `miawChatSession` cookie: either
`JSON.parse` fails, or it yields an object whose `conversationId` /
`continuationToken` properties may each be absent (`undefined`). -/
inductive CookieVal where
  | malformed
  | parsed (conversationId : Option String) (continuationToken : Option String)
deriving DecidableEq, Repr

/-- The observable response of the session-delete route: HTTP status, the
JSON `message`, whether `response.cookies.delete("miawChatSession")` ran,
the `action` field, and the `retryable` field (when present). -/
structure RouteResponse where
  status : Nat
  message : String
  cookieDeleted : Bool
  action : Option String
  retryable : Option Bool
deriving DecidableEq, Repr

/-- The `DELETE` handler of
`src/app/api/agent/miaw/session/delete/route.ts`: missing cookie → 200
"No active session found" with no vendor call; unparsable cookie or
missing conversation id → 400; otherwise set the continuation token from
the cookie when truthy, run `closeConversation`, and on success clear the
token (`setContinuationToken('')`) and delete the cookie. On failure keep
all state; a message containing `'404'` is treated as already-closed
(200, cookie deleted), one containing `'403'` as a non-retryable auth
failure, anything else as a retryable 500. -/
def deleteRoute (cookie : Option CookieVal) (st : ClientState) (v : Vendor)
    (now : Int) : RouteResponse × ClientState × List Call :=
  match cookie with
  | none => (⟨200, "No active session found", false, none, none⟩, st, [])
  | some .malformed => (⟨400, "Invalid session data", false, none, none⟩, st, [])
  | some (.parsed none _) =>
    (⟨400, "Invalid session data - missing conversation ID", false, none, none⟩,
     st, [])
  | some (.parsed (some _) ct) =>
    let st₁ := if truthyS ct then { st with continuationToken := ct } else st
    match closeConversation st₁ v now with
    | (.ok _, st₂, log) =>
      (⟨200, "Conversation closed successfully", true, some "conversation_closed",
        none⟩,
       { st₂ with continuationToken := some "" }, log)
    | (.error msg, st₂, log) =>
      if strIncludes msg "404" then
        (⟨200, "Conversation was already closed", true, some "already_closed",
          none⟩, st₂, log)
      else if strIncludes msg "403" then
        (⟨403, "Authentication failed - please refresh and try again", false,
          some "close_failed", some false⟩, st₂, log)
      else
        (⟨500, msg, false, some "close_failed", some true⟩, st₂, log)

/-- The session payload stored (JSON-stringified) in the `miawChatSession`
cookie by the session-create route; the `messages` array (welcome message
with a `Date.now()` id) is summarised by its one message text. -/
structure SessionPayload where
  status : String
  accessToken : String
  continuationToken : Option String
  conversationId : String
  welcomeMessages : List String
  isAuthenticated : Bool
deriving DecidableEq, Repr

/-- The attributes of a cookie set via `response.cookies.set`. -/
structure SetCookieSpec where
  name : String
  payload : SessionPayload
  httpOnly : Bool
  secure : Bool
  path : String
  maxAge : Nat
deriving DecidableEq, Repr

/-- The observable response of the session-create route. -/
structure CreateResult where
  status : Nat
  message : String
  cookie : Option SetCookieSpec
deriving DecidableEq, Repr

/-- The `POST` session-create handler: validate `jobApplicationNumber`
(falsy → 400) and `termsAndConditionAgreed` (not `true` → 400); then
create the conversation and fetch the tokens (summarised by
`clientResult`: the conversation id, `getCurrentToken()` and
`getContinuationToken()` on success — `createConversation` always reports
`status: 'Active'` on success, so `isAuthenticated` is true); on success
set the session cookie `{httpOnly: true, secure: NODE_ENV === "production",
path: "/", maxAge: 60 * 60 * 24}`; on a thrown error return 500 with no
cookie. -/
def sessionCreateRoute (jobApplicationNumber : String)
    (termsAndConditionAgreed : Bool) (isProd : Bool)
    (clientResult : Except String (String × String × Option String)) :
    CreateResult :=
  if jobApplicationNumber == "" then
    ⟨400, "Job application number is required", none⟩
  else if !termsAndConditionAgreed then
    ⟨400, "Terms and conditions must be accepted", none⟩
  else
    match clientResult with
    | .error _ => ⟨500, "Session creation failed", none⟩
    | .ok (conversationId, accessToken, continuationToken) =>
      let session : SessionPayload :=
        ⟨"success", accessToken, continuationToken, conversationId,
         ["Hello! I'm your Adecco Pre-Screening Assistant. I'll help you with your job application screening process. How can I assist you today?"],
         true⟩
      ⟨200, "success",
       some ⟨"miawChatSession", session, true, isProd, "/", 60 * 60 * 24⟩⟩

/-- The observable response of the message route and whether
`miawClient.sendMessage` was invoked. -/
structure MsgRouteResult where
  status : Nat
  message : String
deriving DecidableEq, Repr

/-- The `POST` handler of `src/app/api/miaw/message/route.ts`: falsy
`messageId` → 400; truthy `msg` longer than 2000 → 400 "Error: Message
too long"; then session-cookie validation; then, when `msg` is truthy,
`sendMessage` (its outcome summarised by `sendResult`, errors becoming a
500); otherwise 200 "success" without sending. The boolean records
whether `sendMessage` was invoked. -/
def messageRoutePOST (messageId msg : Option String)
    (cookie : Option CookieVal) (sendResult : Except Unit Unit) :
    MsgRouteResult × Bool :=
  if !(truthyS messageId) then
    (⟨400, "Error: Message ID is required"⟩, false)
  else if truthyS msg && decide ((msg.getD "").length > 2000) then
    (⟨400, "Error: Message too long"⟩, false)
  else
    match cookie with
    | none => (⟨400, "Invalid Session. Start a new session."⟩, false)
    | some .malformed => (⟨400, "Invalid session data. Start a new session."⟩, false)
    | some (.parsed none _) =>
      (⟨400, "Invalid session data. Start a new session."⟩, false)
    | some (.parsed (some _) _) =>
      if truthyS msg then
        match sendResult with
        | .ok _ => (⟨200, "success"⟩, true)
        | .error _ => (⟨500, "Failed to send message"⟩, true)
      else (⟨200, "success"⟩, false)

/-- The Authorization headers of the message POSTs in a call log. -/
def msgAuths (log : List Call) : List String :=
  log.filterMap (fun c =>
    match c with
    | .msgPost a => some a
    | _ => none)
theorem splitEvents_ne_nil : ∀ l : List Char, splitEvents l ≠ []
  | [] => by simp [splitEvents]
  | [c] => by simp [splitEvents]
  | c₁ :: c₂ :: rest => by
    simp only [splitEvents]
    split
    · simp
    · cases h : splitEvents (c₂ :: rest) <;> simp

theorem splitEvents_singleton_eq :
    ∀ (l p : List Char), splitEvents l = [p] → p = l
  | [], p, h => by
    simp only [splitEvents, List.cons.injEq] at h
    exact h.1.symm
  | [c], p, h => by
    simp only [splitEvents, List.cons.injEq] at h
    exact h.1.symm
  | c₁ :: c₂ :: rest, p, h => by
    simp only [splitEvents] at h
    split at h
    · cases hsp : splitEvents rest with
      | nil => exact absurd hsp (splitEvents_ne_nil _)
      | cons q qs => rw [hsp] at h; simp at h
    · cases hsp : splitEvents (c₂ :: rest) with
      | nil => exact absurd hsp (splitEvents_ne_nil _)
      | cons q qs =>
        rw [hsp] at h
        simp only [List.cons.injEq] at h
        obtain ⟨h₁, h₂⟩ := h
        subst h₂
        rw [← h₁, splitEvents_singleton_eq (c₂ :: rest) q hsp]

theorem splitEvents_of_not_hasDelim :
    ∀ l : List Char, hasDelim l = false → splitEvents l = [l]
  | [], _ => by simp [splitEvents]
  | [c], _ => by simp [splitEvents]
  | c₁ :: c₂ :: rest, h => by
    rw [hasDelim] at h
    simp only [Bool.or_eq_false_iff, Bool.and_eq_false_iff,
      decide_eq_false_iff_not] at h
    obtain ⟨h₁, h₂⟩ := h
    simp only [splitEvents]
    rw [if_neg (by rcases h₁ with h₁ | h₁ <;> simp_all)]
    rw [splitEvents_of_not_hasDelim (c₂ :: rest) h₂]

/-- Splitting a frame followed by the delimiter: since the frame contains
no delimiter and does not end in `'\n'`, the first delimiter occurrence in
`F ++ "\n\n" ++ r` is the appended one, so the frame is cut off whole. -/
theorem splitEvents_frame_append :
    ∀ (F r : List Char), hasDelim F = false → F.getLast? ≠ some '\n' →
      splitEvents (F ++ dd ++ r) = F :: splitEvents r
  | [], r, _, _ => by
    simp [dd, splitEvents]
  | [c], r, _, hlast => by
    have hc : ¬ c = '\n' := by simpa using hlast
    simp [dd, splitEvents, hc]
  | c₁ :: c₂ :: F', r, hF, hlast => by
    rw [hasDelim] at hF
    simp only [Bool.or_eq_false_iff, Bool.and_eq_false_iff,
      decide_eq_false_iff_not] at hF
    obtain ⟨h₁, h₂⟩ := hF
    have hlast' : (c₂ :: F').getLast? ≠ some '\n' := by
      simpa [List.getLast?_cons_cons] using hlast
    have ih := splitEvents_frame_append (c₂ :: F') r h₂ hlast'
    simp only [List.cons_append] at ih ⊢
    simp only [splitEvents]
    rw [if_neg (by rcases h₁ with h₁ | h₁ <;> simp_all)]
    rw [ih]

/-- The last fragment produced by the splitter never contains the
delimiter: the scan has consumed every occurrence. -/
theorem hasDelim_lastPart :
    ∀ l : List Char, hasDelim ((splitEvents l).getLast?.getD []) = false
  | [] => by simp [splitEvents, hasDelim]
  | [c] => by simp [splitEvents, hasDelim]
  | c₁ :: c₂ :: rest => by
    simp only [splitEvents]
    split
    · have h := hasDelim_lastPart rest
      cases hsp : splitEvents rest with
      | nil => exact absurd hsp (splitEvents_ne_nil _)
      | cons p ps =>
        rw [hsp] at h
        simpa [List.getLast?_cons_cons] using h
    · rename_i hne
      cases hsp : splitEvents (c₂ :: rest) with
      | nil => exact absurd hsp (splitEvents_ne_nil _)
      | cons p ps =>
        have h := hasDelim_lastPart (c₂ :: rest)
        rw [hsp] at h
        cases ps with
        | nil =>
          have hp : p = c₂ :: rest := splitEvents_singleton_eq (c₂ :: rest) p hsp
          subst hp
          simp only [List.getLast?_singleton, Option.getD_some] at h ⊢
          rw [hasDelim]
          simp only [Bool.or_eq_false_iff, Bool.and_eq_false_iff,
            decide_eq_false_iff_not]
          refine ⟨?_, h⟩
          by_cases hc₁ : c₁ = '\n'
          · subst hc₁
            right
            intro hc₂
            exact hne ⟨rfl, hc₂⟩
          · left; exact hc₁
        | cons q qs =>
          simpa [List.getLast?_cons_cons] using h

/-- Left-to-right splitting is compositional: the cuts made inside `x`
stay, and the retained tail of `x` is re-scanned together with `b`.
This is exactly why the relay's carry-over buffer is correct. -/
theorem splitEvents_append :
    ∀ (x b : List Char),
      splitEvents (x ++ b) =
        (splitEvents x).dropLast ++
          splitEvents (((splitEvents x).getLast?).getD [] ++ b)
  | [], b => by simp [splitEvents]
  | [c], b => by simp [splitEvents]
  | c₁ :: c₂ :: rest, b => by
    by_cases hc : c₁ = '\n' ∧ c₂ = '\n'
    · obtain ⟨hc₁, hc₂⟩ := hc
      subst hc₁; subst hc₂
      have ih := splitEvents_append rest b
      have e₁ : splitEvents (('\n' :: '\n' :: rest) ++ b) =
          [] :: splitEvents (rest ++ b) := by
        simp [splitEvents]
      have e₂ : splitEvents ('\n' :: '\n' :: rest) = [] :: splitEvents rest := by
        simp [splitEvents]
      cases hsp : splitEvents rest with
      | nil => exact absurd hsp (splitEvents_ne_nil _)
      | cons p ps =>
        rw [hsp] at ih e₂
        rw [e₁, e₂, ih]
        cases ps <;> simp [List.getLast?_cons_cons]
    · cases hsp : splitEvents (c₂ :: rest) with
      | nil => exact absurd hsp (splitEvents_ne_nil _)
      | cons p ps =>
        have ih := splitEvents_append (c₂ :: rest) b
        rw [hsp] at ih
        cases ps with
        | nil =>
          have hp : p = c₂ :: rest := splitEvents_singleton_eq (c₂ :: rest) p hsp
          subst hp
          have e₃ : splitEvents (c₁ :: c₂ :: rest) = [c₁ :: c₂ :: rest] := by
            simp [splitEvents, hsp, hc]
          rw [e₃]
          simp
        | cons q qs =>
          have ihs : splitEvents (c₂ :: (rest ++ b)) =
              p :: ((q :: qs).dropLast ++
                splitEvents (((q :: qs).getLast?).getD [] ++ b)) := by
            simpa using ih
          have e₄ : splitEvents (c₁ :: c₂ :: rest) = (c₁ :: p) :: q :: qs := by
            simp [splitEvents, hsp, hc]
          have e₅ : splitEvents (c₁ :: c₂ :: (rest ++ b)) =
              (c₁ :: p) :: ((q :: qs).dropLast ++
                splitEvents (((q :: qs).getLast?).getD [] ++ b)) := by
            simp [splitEvents, ihs, hc]
          simp only [List.cons_append] at e₅ ⊢
          rw [e₅, e₄]
          simp [List.getLast?_cons_cons]

/-! ### Relay invariants -/

/-- Processing the empty chunk from a delimiter-free buffer is a no-op. -/
theorem processChunk_nil (st : RelayState) (h : hasDelim st.buffer = false) :
    processChunk st [] = st := by
  simp only [processChunk, List.append_nil,
    splitEvents_of_not_hasDelim st.buffer h]
  simp

/-- Feeding chunk `a ++ b` is the same as feeding `a` then `b`: the
buffer exactly bridges chunk boundaries. -/
theorem processChunk_append (st : RelayState) (a b : List Char) :
    processChunk st (a ++ b) = processChunk (processChunk st a) b := by
  simp only [processChunk, ← List.append_assoc]
  have key := splitEvents_append (st.buffer ++ a) b
  cases hT : splitEvents (((splitEvents (st.buffer ++ a)).getLast?).getD [] ++ b) with
  | nil => exact absurd hT (splitEvents_ne_nil _)
  | cons t ts =>
    rw [hT] at key
    rw [key]
    simp only [RelayState.mk.injEq]
    refine ⟨?_, ?_⟩
    · -- buffers agree
      simp only [List.getLast?_append]
      cases h : (t :: ts).getLast? with
      | none => simp at h
      | some y => simp [h]
    · -- sent lists agree
      rw [List.dropLast_append_cons]
      simp [List.filter_append, List.append_assoc]

/-- Folding the relay over a chunk list equals one shot over the
concatenation, starting from any delimiter-free buffer. -/
theorem relay_foldl_eq_flatten :
    ∀ (cs : List (List Char)) (st : RelayState),
      hasDelim st.buffer = false →
      cs.foldl processChunk st = processChunk st cs.flatten
  | [], st, h => by
    simp [List.foldl_nil, List.flatten_nil, processChunk_nil st h]
  | c :: cs, st, h => by
    have hbuf : hasDelim (processChunk st c).buffer = false := by
      simp only [processChunk]
      exact hasDelim_lastPart (st.buffer ++ c)
    calc (c :: cs).foldl processChunk st
        = cs.foldl processChunk (processChunk st c) := by simp
      _ = processChunk (processChunk st c) cs.flatten :=
          relay_foldl_eq_flatten cs (processChunk st c) hbuf
      _ = processChunk st (c ++ cs.flatten) :=
          (processChunk_append st c cs.flatten).symm
      _ = processChunk st (c :: cs).flatten := by simp

/-- Splitting a concatenation of delimiter-terminated frames followed by a
delimiter-free partial fragment recovers the frames and the fragment. -/
theorem splitEvents_frames :
    ∀ (Fs : List (List Char)) (P : List Char),
      (∀ F ∈ Fs, IsFrame F) → hasDelim P = false →
      splitEvents ((Fs.map (fun F => F ++ dd)).flatten ++ P) = Fs ++ [P]
  | [], P, _, hP => by
    simp [splitEvents_of_not_hasDelim P hP]
  | F :: Fs, P, hF, hP => by
    have hFr : IsFrame F := hF F (by simp)
    have ih := splitEvents_frames Fs P (fun G hG => hF G (by simp [hG])) hP
    simp only [List.map_cons, List.flatten_cons, List.append_assoc]
    rw [← List.append_assoc F dd _]
    rw [splitEvents_frame_append F _ hFr.1 hFr.2.1]
    rw [ih]
    simp

/-- Complete characterisation of a relay run: if the concatenation of the
upstream chunks consists of delimiter-terminated frames `Fs` followed by a
delimiter-free partial fragment `P`, the relay forwards exactly the frames
of `Fs`, re-framed with the delimiter, in order, and retains `P` as its
buffer. Shared backbone of the frame-forwarding claims. -/
theorem relay_decomposition (cs Fs : List (List Char)) (P : List Char)
    (hF : ∀ F ∈ Fs, IsFrame F) (hP : hasDelim P = false)
    (hcat : cs.flatten = (Fs.map (fun F => F ++ dd)).flatten ++ P) :
    relayRun cs = ⟨P, Fs.map (fun F => F ++ dd)⟩ := by
  unfold relayRun
  rw [relay_foldl_eq_flatten cs ⟨[], []⟩ rfl, hcat]
  simp only [processChunk, List.nil_append]
  rw [splitEvents_frames Fs P hF hP]
  rw [List.dropLast_concat, List.getLast?_concat]
  rw [List.filter_eq_self.mpr (fun F hFs => (hF F hFs).2.2)]
  simp

/-! ## Helper lemmas for the route and client theorems -/

/-- The close-error message always contains the decimal HTTP status. -/
theorem closeErrMsg_includes_status (s : Nat) (stx : String) :
    strIncludes (closeErrMsg s stx) (toString s) := by
  unfold strIncludes
  refine ⟨("Failed to close conversation: ").toList, (" " ++ stx).toList, ?_⟩
  simp [closeErrMsg, String.toList]

theorem truthyS_eq_true_iff (o : Option String) :
    truthyS o = true ↔ ∃ c, o = some c ∧ c ≠ "" := by
  cases o <;> simp [truthyS]

/-- Running the delete route on a session cookie with a conversation id and
a non-empty continuation token, when the vendor's close DELETE returns an
HTTP error: the continuation token is installed from the cookie, exactly
one close call is made, and the response is classified by the `'404'` /
`'403'` message checks. Shared backbone of the close-failure claims. -/
theorem deleteRoute_close_httpErr (cid t stx : String) (st : ClientState)
    (v : Vendor) (now : Int) (s : Nat) (ht : t ≠ "")
    (hclose : v.closeResp = .httpErr s stx) :
    deleteRoute (some (.parsed (some cid) (some t))) st v now =
      ((if strIncludes (closeErrMsg s stx) "404" then
          ⟨200, "Conversation was already closed", true, some "already_closed",
           none⟩
        else if strIncludes (closeErrMsg s stx) "403" then
          ⟨403, "Authentication failed - please refresh and try again", false,
           some "close_failed", some false⟩
        else
          ⟨500, closeErrMsg s stx, false, some "close_failed", some true⟩ :
          RouteResponse),
       { st with continuationToken := some t },
       [.closeDelete ("Bearer " ++ t)]) := by
  have htr : truthyS (some t) = true := by simp [truthyS, ht]
  have htr' : truthyS ({ st with continuationToken := some t } :
      ClientState).continuationToken = true := htr
  have hens : ensureContinuationToken { st with continuationToken := some t }
      v now = (.ok (), { st with continuationToken := some t }, []) := by
    unfold ensureContinuationToken
    rw [if_pos htr']
  have hauth : getAuthWithContinuation { st with continuationToken := some t }
      v now =
      (.ok ("Bearer " ++ t), { st with continuationToken := some t }, []) := by
    unfold getAuthWithContinuation
    rw [if_pos htr']
    rfl
  have hcc : closeConversation { st with continuationToken := some t } v now =
      (.error (closeErrMsg s stx), { st with continuationToken := some t },
       [.closeDelete ("Bearer " ++ t)]) := by
    unfold closeConversation
    simp [hens, hauth, hclose]
  by_cases h4 : strIncludes (closeErrMsg s stx) "404"
  · simp [deleteRoute, htr, hcc, h4]
  · by_cases h3 : strIncludes (closeErrMsg s stx) "403"
    · simp [deleteRoute, htr, hcc, h4, h3]
    · simp [deleteRoute, htr, hcc, h4, h3]

theorem msgAuths_append (a b : List Call) :
    msgAuths (a ++ b) = msgAuths a ++ msgAuths b :=
  List.filterMap_append a b _

theorem msgAuths_getToken (st : ClientState) (r : TokenResp) (now : Int)
    (f : Bool) : msgAuths (getToken st r now f).2.2 = [] := by
  rw [getToken.eq_def]
  split
  · rfl
  · cases r <;> rfl

theorem msgAuths_generate (st : ClientState) (v : Vendor) (now : Int) :
    msgAuths (generateContinuationToken st v now).2.2 = [] := by
  unfold generateContinuationToken
  rcases hG : getToken st v.tokenResp now false with ⟨rg, stg, logg⟩
  have hg : msgAuths logg = [] := by
    have h := msgAuths_getToken st v.tokenResp now false
    rw [hG] at h
    exact h
  cases rg with
  | error e => simpa using hg
  | ok tok =>
    have hone : msgAuths [Call.contToken ("Bearer " ++ tok)] = [] := rfl
    cases v.contResp with
    | error e =>
      show msgAuths (logg ++ [Call.contToken ("Bearer " ++ tok)]) = []
      rw [msgAuths_append, hg, hone]
      rfl
    | ok c =>
      show msgAuths (logg ++ [Call.contToken ("Bearer " ++ tok)]) = []
      rw [msgAuths_append, hg, hone]
      rfl

theorem msgAuths_ensure (st : ClientState) (v : Vendor) (now : Int) :
    msgAuths (ensureContinuationToken st v now).2.2 = [] := by
  unfold ensureContinuationToken
  split
  · rfl
  · rcases hg : generateContinuationToken st v now with ⟨rg, stg, logg⟩
    have h' : msgAuths logg = [] := by
      have h := msgAuths_generate st v now
      rw [hg] at h
      exact h
    cases rg with
    | error e => simpa using h'
    | ok tok =>
      by_cases htr : truthyS stg.continuationToken = true <;> simp [htr, h']

/-- A successful `ensureContinuationToken` leaves a truthy continuation
token in the state (either it was already cached, or the post-generation
check passed). -/
theorem ensure_ok_truthy (st : ClientState) (v : Vendor) (now : Int)
    (u : Unit) (st₁ : ClientState) (log : List Call)
    (h : ensureContinuationToken st v now = (.ok u, st₁, log)) :
    truthyS st₁.continuationToken = true := by
  unfold ensureContinuationToken at h
  split at h
  · rename_i htr
    injection h with h1 h2
    injection h2 with h2a h2b
    subst h2a
    exact htr
  · split at h
    · simp at h
    · split at h
      · rename_i hcond
        injection h with h1 h2
        injection h2 with h2a h2b
        subst h2a
        exact hcond
      · simp at h

/-! ## Claims -/

/-- C1: For every sequence of upstream chunks fed to the Event Relay inside
`subscribeEvents` whose concatenation contains N complete SSE frames (each
terminated by the blank-line delimiter `"\n\n"`) followed by one partial
frame, the relay enqueues exactly the N forwarded events to the downstream
sink, in the order the frames were completed, and retains exactly the
trailing partial fragment (possibly empty) as its buffer afterwards.
(A "complete SSE frame" is a non-blank, delimiter-free fragment, per
`IsFrame`; blank fragments are not frames and are dropped by the relay's
`eventData.trim()` check.) -/
theorem relay_forwards_complete_frames (cs Fs : List (List Char))
    (P : List Char) (hF : ∀ F ∈ Fs, IsFrame F) (hP : hasDelim P = false)
    (hcat : cs.flatten = (Fs.map (fun F => F ++ dd)).flatten ++ P) :
    relayRun cs = ⟨P, Fs.map (fun F => F ++ dd)⟩ :=
  relay_decomposition cs Fs P hF hP hcat

theorem relay_forwards_complete_frames_witness :
    relayRun
      [("event: CONVERSATION_MESSAGE\nda").toList,
       ("ta: one\n\nevent: ping\ndata: t").toList,
       ("wo\n\nid: 3").toList] =
      ⟨("id: 3").toList,
       [("event: CONVERSATION_MESSAGE\ndata: one").toList,
        ("event: ping\ndata: two").toList].map (fun F => F ++ dd)⟩ :=
  relay_forwards_complete_frames _ _ _ (by decide) (by decide) (by decide)

/-- C2: For every single complete SSE frame, splitting its text across two
or more arbitrary chunk boundaries (including mid-line) and feeding the
pieces to the relay's buffer-and-split loop yields exactly one forwarded
event, and the re-framed text enqueued downstream is identical to the
output produced when the same frame arrives as one unsplit chunk. -/
theorem relay_single_frame_split_invariant (F : List Char)
    (cs : List (List Char)) (hF : IsFrame F) (hcat : cs.flatten = F ++ dd) :
    relayRun cs = relayRun [F ++ dd] ∧ (relayRun cs).sent = [F ++ dd] := by
  have h₁ := relay_decomposition cs [F] [] (by simpa using hF) rfl
    (by simpa using hcat)
  have h₂ := relay_decomposition [F ++ dd] [F] [] (by simpa using hF) rfl
    (by simp)
  refine ⟨h₁.trans h₂.symm, ?_⟩
  rw [h₁]
  simp

theorem relay_single_frame_split_invariant_witness :
    relayRun
      [("event: CONVER").toList, ("SATION_MESSAGE\ndata").toList,
       (": hi\n").toList, ("\n").toList] =
      relayRun [("event: CONVERSATION_MESSAGE\ndata: hi").toList ++ dd] ∧
    (relayRun
      [("event: CONVER").toList, ("SATION_MESSAGE\ndata").toList,
       (": hi\n").toList, ("\n").toList]).sent =
      [("event: CONVERSATION_MESSAGE\ndata: hi").toList ++ dd] :=
  relay_single_frame_split_invariant _ _ (by decide) (by decide)

/-- C5: For the token manager's access-token getter (`getToken`): two calls
without `forceRefresh` — the first from a cold cache, the second while the
token cached by the first is younger than its assumed expiry minus the
5-minute safety margin — perform exactly one vendor token-issuance call
between them (the first logs it, the second returns the cache unchanged);
a call with `forceRefresh = true` always performs a vendor call regardless
of cache freshness; and the call fails with an error when the vendor call
errors or returns no token. -/
theorem getToken_caching_spec (tok : String) (t₁ t₂ : Int)
    (st₀ : ClientState) (r₂ : TokenResp) (htok : tok ≠ "")
    (hcold : st₀.token = none) (ht₁ : 0 ≤ t₁)
    (hfresh : t₂ < t₁ + 3600000 - 300000)
    (stF : ClientState) (rF : TokenResp) (tF : Int)
    (stN : ClientState) (tN : Int) (fN : Bool) (hN : stN.token = none) :
    (getToken st₀ (.success tok) t₁ false).1 = .ok tok ∧
    (getToken st₀ (.success tok) t₁ false).2.2 = [.accessToken] ∧
    getToken (getToken st₀ (.success tok) t₁ false).2.1 r₂ t₂ false =
      (.ok tok, (getToken st₀ (.success tok) t₁ false).2.1, []) ∧
    (getToken stF rF tF true).2.2.length = 1 ∧
    (getToken stN .noToken tN fN).1 = .error "Failed to get valid access token" ∧
    (getToken stN .failure tN fN).1 =
      .error "Failed to generate MIAW access token" := by
  have hc₀ : (!false && truthyS st₀.token && truthyI st₀.tokenExpiresAt
      && decide (t₁ < st₀.tokenExpiresAt.getD 0 - 300000)) = false := by
    rw [hcold]; simp [truthyS]
  have h₁ : getToken st₀ (.success tok) t₁ false =
      (.ok tok,
       { st₀ with token := some tok, tokenExpiresAt := some (t₁ + 3600000) },
       [.accessToken]) := by
    rw [getToken, if_neg (by rw [hc₀]; simp)]
  have hfr : (!false
      && truthyS (some tok) && truthyI (some (t₁ + 3600000))
      && decide (t₂ < (some (t₁ + 3600000)).getD 0 - 300000)) = true := by
    have h1 : truthyS (some tok) = true := by simp [truthyS, htok]
    have h2 : truthyI (some (t₁ + 3600000)) = true := by
      simp only [truthyI, Bool.not_eq_true', beq_eq_false_iff_ne]
      omega
    simp only [h1, h2, Option.getD_some, Bool.not_false, Bool.true_and,
      Bool.and_self, decide_eq_true_eq]
    omega
  have hcN : (!fN && truthyS stN.token && truthyI stN.tokenExpiresAt
      && decide (tN < stN.tokenExpiresAt.getD 0 - 300000)) = false := by
    rw [hN]; simp [truthyS]
  refine ⟨by rw [h₁], by rw [h₁], ?_, ?_, ?_, ?_⟩
  · rw [h₁]
    rw [getToken.eq_def, if_pos (by rw [hfr])]
    simp
  · rw [getToken.eq_def]
    split
    · simp_all
    · cases rF <;> simp
  · rw [getToken.eq_def, if_neg (by rw [hcN]; simp)]
  · rw [getToken.eq_def, if_neg (by rw [hcN]; simp)]

theorem getToken_caching_spec_witness :
    (getToken ⟨none, none, none⟩ (.success "T1") 0 false).1 = .ok "T1" ∧
    (getToken ⟨none, none, none⟩ (.success "T1") 0 false).2.2 =
      [.accessToken] ∧
    getToken (getToken ⟨none, none, none⟩ (.success "T1") 0 false).2.1
        .failure 1000 false =
      (.ok "T1", (getToken ⟨none, none, none⟩ (.success "T1") 0 false).2.1,
       []) ∧
    (getToken ⟨some "T1", some 10, none⟩ (.success "T2") 5 true).2.2.length
      = 1 ∧
    (getToken ⟨none, none, none⟩ .noToken 0 false).1 =
      .error "Failed to get valid access token" ∧
    (getToken ⟨none, none, none⟩ .failure 0 false).1 =
      .error "Failed to generate MIAW access token" :=
  getToken_caching_spec "T1" 0 1000 ⟨none, none, none⟩ .failure
    (by decide) rfl (by decide) (by decide)
    ⟨some "T1", some 10, none⟩ (.success "T2") 5
    ⟨none, none, none⟩ 0 false rfl

/-- C8: Every session cookie set by the session-create endpoint on
successful conversation creation is HTTP-only, marked `Secure` exactly in
production, scoped to path `/`, has a 24-hour max age, and its JSON
payload carries the `conversationId` and `continuationToken` fields. -/
theorem sessionCreate_cookie_policy (jan : String) (isProd : Bool)
    (cid atk : String) (ct : Option String) (hjan : jan ≠ "") :
    ∃ ck, (sessionCreateRoute jan true isProd (.ok (cid, atk, ct))).cookie
        = some ck ∧
      ck.httpOnly = true ∧ ck.secure = isProd ∧ ck.path = "/" ∧
      ck.maxAge = 60 * 60 * 24 ∧ ck.payload.conversationId = cid ∧
      ck.payload.continuationToken = ct := by
  have h : (jan == "") = false := by simpa using hjan
  unfold sessionCreateRoute
  rw [if_neg (by rw [h]; simp), if_neg (by simp)]
  exact ⟨_, rfl, rfl, rfl, rfl, rfl, rfl, rfl⟩

theorem sessionCreate_cookie_policy_witness :
    ∃ ck, (sessionCreateRoute "JAN-1" true true
        (.ok ("c1", "AT", some "CT"))).cookie = some ck ∧
      ck.httpOnly = true ∧ ck.secure = true ∧ ck.path = "/" ∧
      ck.maxAge = 60 * 60 * 24 ∧ ck.payload.conversationId = "c1" ∧
      ck.payload.continuationToken = some "CT" :=
  sessionCreate_cookie_policy "JAN-1" true "c1" "AT" (some "CT") (by decide)

/-- C9 counterexample: a POST whose `msg` exceeds 2000 characters but whose
`messageId` is missing is rejected by the earlier message-id check: the
route returns 400 "Error: Message ID is required" — not the claimed
"Error: Message too long" — so the claim's universal statement over all
long-message POSTs fails (no vendor call happens either way). -/
theorem messageRoute_missing_id_long_message :
    messageRoutePOST none (some (String.mk (List.replicate 2001 'a'))) none
        (.ok ()) = (⟨400, "Error: Message ID is required"⟩, false) ∧
    2000 < (String.mk (List.replicate 2001 'a')).length ∧
    "Error: Message ID is required" ≠ "Error: Message too long" := by
  refine ⟨rfl, ?_, by decide⟩
  have h : (String.mk (List.replicate 2001 'a')).length = 2001 := by
    show (List.replicate 2001 'a').length = 2001
    rw [List.length_replicate]
  omega

/-- C9 (implicit, amended): a POST to the message endpoint carrying a
message id whose `msg` field is longer than 2000 characters returns HTTP
400 with "Error: Message too long" and performs no vendor call
(`sendMessage` is never invoked); messages of 2000 characters or fewer
never trip this check. -/
theorem messageRoute_length_limit (mid msg : String)
    (cookie : Option CookieVal) (sr : Except Unit Unit)
    (m₂ : Option String) (msg₂ : String) (cookie₂ : Option CookieVal)
    (sr₂ : Except Unit Unit)
    (hmid : mid ≠ "") (hlong : 2000 < msg.length)
    (hshort : msg₂.length ≤ 2000) :
    messageRoutePOST (some mid) (some msg) cookie sr =
      (⟨400, "Error: Message too long"⟩, false) ∧
    (messageRoutePOST m₂ (some msg₂) cookie₂ sr₂).1.message ≠
      "Error: Message too long" := by
  constructor
  · have hm : msg ≠ "" := by
      intro h
      rw [h] at hlong
      simp [String.length] at hlong
    unfold messageRoutePOST
    rw [if_neg (by simp [truthyS, hmid])]
    rw [if_pos (by
      have h1 : truthyS (some msg) = true := by simp [truthyS, hm]
      simp [h1, hlong])]
  · unfold messageRoutePOST
    split
    · decide
    · split
      · rename_i hcond
        simp only [Bool.and_eq_true, decide_eq_true_eq, Option.getD_some]
          at hcond
        exact absurd hcond.2 (by omega)
      · split <;>
          first
          | decide
          | (split <;> first | decide | (split <;> decide))

theorem messageRoute_length_limit_witness :
    messageRoutePOST (some "m1")
        (some (String.mk (List.replicate 2001 'a'))) none (.ok ()) =
      (⟨400, "Error: Message too long"⟩, false) ∧
    (messageRoutePOST (some "m1") (some "hello") none (.ok ())).1.message ≠
      "Error: Message too long" :=
  messageRoute_length_limit "m1" (String.mk (List.replicate 2001 'a'))
    none (.ok ()) (some "m1") "hello" none (.ok ())
    (by decide)
    (by
      have h : (String.mk (List.replicate 2001 'a')).length = 2001 := by
        show (List.replicate 2001 'a').length = 2001
        rw [List.length_replicate]
      omega)
    (by decide)

/-- C10 (implicit): a DELETE to the session-delete endpoint with no session
cookie returns HTTP 200 with "No active session found", performs no vendor
call, and changes no state: deleting an absent session is a non-error, so
session deletion is safe to repeat. -/
theorem deleteRoute_absent_session (st : ClientState) (v : Vendor)
    (now : Int) :
    deleteRoute none st v now =
      (⟨200, "No active session found", false, none, none⟩, st, []) := rfl

/-- C3 counterexample: on HTTP 404 from the vendor's close call the route
deletes the session cookie, but — unlike the successful close, which runs
`setContinuationToken('')` — the cached continuation token is NOT
cleared: it still holds the cookie's token afterwards. This refutes the
claim that the 404 outcome clears the cached continuation token exactly
as a successful close does. -/
theorem deleteRoute_404_keeps_cached_token :
    (deleteRoute (some (.parsed (some "c1") (some "tok"))) ⟨none, none, none⟩
        ⟨.success "AT", .ok "CT", .ok (), .httpErr 404 "Not Found"⟩
        0).1.cookieDeleted = true ∧
    (deleteRoute (some (.parsed (some "c1") (some "tok"))) ⟨none, none, none⟩
        ⟨.success "AT", .ok "CT", .ok (), .httpErr 404 "Not Found"⟩
        0).2.1.continuationToken = some "tok" ∧
    (deleteRoute (some (.parsed (some "c1") (some "tok"))) ⟨none, none, none⟩
        ⟨.success "AT", .ok "CT", .ok (), .ok⟩ 0).2.1.continuationToken
      = some "" ∧
    (some "tok" : Option String) ≠ some "" := by
  refine ⟨rfl, rfl, rfl, by decide⟩

/-- C3 (amended): when the ordered close sequence receives HTTP 404 from
the vendor's close-conversation call, the outcome is treated as success —
HTTP 200 with action `already_closed` and the session cookie is deleted —
but, unlike a successful close, the cached continuation token is left
unchanged (the route returns before `setContinuationToken('')`). -/
theorem deleteRoute_404_treated_as_success (cid t stx : String)
    (st : ClientState) (v : Vendor) (now : Int) (ht : t ≠ "")
    (hclose : v.closeResp = .httpErr 404 stx) :
    deleteRoute (some (.parsed (some cid) (some t))) st v now =
      (⟨200, "Conversation was already closed", true, some "already_closed",
        none⟩,
       { st with continuationToken := some t },
       [.closeDelete ("Bearer " ++ t)]) := by
  have h4 : strIncludes (closeErrMsg 404 stx) "404" := by
    have h := closeErrMsg_includes_status 404 stx
    have e : toString (404 : Nat) = "404" := rfl
    rwa [e] at h
  rw [deleteRoute_close_httpErr cid t stx st v now 404 ht hclose,
    if_pos h4]

theorem deleteRoute_404_treated_as_success_witness :
    deleteRoute (some (.parsed (some "c1") (some "tok"))) ⟨none, none, none⟩
        ⟨.success "AT", .ok "CT", .ok (), .httpErr 404 "Not Found"⟩ 0 =
      (⟨200, "Conversation was already closed", true, some "already_closed",
        none⟩,
       ⟨none, none, some "tok"⟩,
       [.closeDelete ("Bearer " ++ "tok")]) :=
  deleteRoute_404_treated_as_success "c1" "tok" "Not Found"
    ⟨none, none, none⟩ _ 0 (by decide) rfl

/-- C4: when the ordered close sequence receives a retryable vendor error
(HTTP status whose rendered close-error message contains neither `'404'`
nor `'403'`, e.g. HTTP 500), the session cookie is not deleted and the
continuation token installed from the cookie is not cleared (local state
is preserved for retry), and the endpoint returns a retryable error —
while an HTTP 403 close failure is returned as non-retryable. -/
theorem deleteRoute_retryable_preserves_state (cid t stx stx' : String)
    (st st' : ClientState) (v v' : Vendor) (now now' : Int) (s : Nat)
    (ht : t ≠ "")
    (hclose : v.closeResp = .httpErr s stx)
    (h404 : ¬ strIncludes (closeErrMsg s stx) "404")
    (h403 : ¬ strIncludes (closeErrMsg s stx) "403")
    (hclose' : v'.closeResp = .httpErr 403 stx')
    (h404' : ¬ strIncludes (closeErrMsg 403 stx') "404") :
    deleteRoute (some (.parsed (some cid) (some t))) st v now =
      (⟨500, closeErrMsg s stx, false, some "close_failed", some true⟩,
       { st with continuationToken := some t },
       [.closeDelete ("Bearer " ++ t)]) ∧
    deleteRoute (some (.parsed (some cid) (some t))) st' v' now' =
      (⟨403, "Authentication failed - please refresh and try again", false,
        some "close_failed", some false⟩,
       { st' with continuationToken := some t },
       [.closeDelete ("Bearer " ++ t)]) := by
  constructor
  · rw [deleteRoute_close_httpErr cid t stx st v now s ht hclose,
      if_neg h404, if_neg h403]
  · have h3 : strIncludes (closeErrMsg 403 stx') "403" := by
      have h := closeErrMsg_includes_status 403 stx'
      have e : toString (403 : Nat) = "403" := rfl
      rwa [e] at h
    rw [deleteRoute_close_httpErr cid t stx' st' v' now' 403 ht hclose',
      if_neg h404', if_pos h3]

theorem deleteRoute_retryable_preserves_state_witness :
    deleteRoute (some (.parsed (some "c1") (some "tok"))) ⟨none, none, none⟩
        ⟨.success "AT", .ok "CT", .ok (),
         .httpErr 500 "Internal Server Error"⟩ 0 =
      (⟨500, closeErrMsg 500 "Internal Server Error", false,
        some "close_failed", some true⟩,
       ⟨none, none, some "tok"⟩,
       [.closeDelete ("Bearer " ++ "tok")]) ∧
    deleteRoute (some (.parsed (some "c1") (some "tok"))) ⟨none, none, none⟩
        ⟨.success "AT", .ok "CT", .ok (), .httpErr 403 "Forbidden"⟩ 0 =
      (⟨403, "Authentication failed - please refresh and try again", false,
        some "close_failed", some false⟩,
       ⟨none, none, some "tok"⟩,
       [.closeDelete ("Bearer " ++ "tok")]) :=
  deleteRoute_retryable_preserves_state "c1" "tok" "Internal Server Error"
    "Forbidden" ⟨none, none, none⟩ ⟨none, none, none⟩ _ _ 0 0 500
    (by decide) rfl (by decide) (by decide) rfl (by decide)

/-- C6: every `sendMessage` call authenticates the vendor message POST
with a continuation token: either the run performs exactly one message
POST whose Authorization bearer value is the (truthy) cached continuation
token — never the plain access token fallback, which is unreachable after
`ensureContinuationToken` succeeds — or no message POST happens at all
and the call fails, rather than silently falling back. -/
theorem sendMessage_requires_continuation_token (st : ClientState)
    (v : Vendor) (now : Int) :
    (∃ c, c ≠ "" ∧
      (sendMessage st v now).2.1.continuationToken = some c ∧
      msgAuths (sendMessage st v now).2.2 = ["Bearer " ++ c]) ∨
    (msgAuths (sendMessage st v now).2.2 = [] ∧
      (sendMessage st v now).1 = .error "Failed to send message") := by
  rcases hE : ensureContinuationToken st v now with ⟨r, st₁, log⟩
  have hlogE : msgAuths log = [] := by
    have h := msgAuths_ensure st v now
    rw [hE] at h
    exact h
  cases r with
  | error e =>
    have hrun : sendMessage st v now =
        (.error "Failed to send message", st₁, log) := by
      unfold sendMessage
      rw [hE]
    right
    rw [hrun]
    exact ⟨hlogE, rfl⟩
  | ok u =>
    have htr : truthyS st₁.continuationToken = true :=
      ensure_ok_truthy st v now u st₁ log hE
    obtain ⟨c, hc, hcne⟩ : ∃ c, st₁.continuationToken = some c ∧ c ≠ "" :=
      (truthyS_eq_true_iff _).mp htr
    have hone : msgAuths [Call.msgPost ("Bearer " ++ c)] = ["Bearer " ++ c] :=
      rfl
    have hauth : getAuthWithContinuation st₁ v now =
        (.ok ("Bearer " ++ c), st₁, []) := by
      unfold getAuthWithContinuation
      rw [if_pos htr, hc]
      rfl
    left
    cases hM : v.msgResp with
    | ok w =>
      have hrun : sendMessage st v now =
          (.ok (), st₁, log ++ [] ++ [.msgPost ("Bearer " ++ c)]) := by
        unfold sendMessage
        rw [hE]
        simp [hauth, hM]
      exact ⟨c, hcne, by rw [hrun]; exact hc,
        by
          rw [hrun]
          simp only [List.append_nil, msgAuths_append, hlogE, hone,
            List.nil_append]⟩
    | error w =>
      have hrun : sendMessage st v now =
          (.error "Failed to send message", st₁,
           log ++ [] ++ [.msgPost ("Bearer " ++ c)]) := by
        unfold sendMessage
        rw [hE]
        simp [hauth, hM]
      exact ⟨c, hcne, by rw [hrun]; exact hc,
        by
          rw [hrun]
          simp only [List.append_nil, msgAuths_append, hlogE, hone,
            List.nil_append]⟩

/-- C7: `ensureContinuationToken` is a no-op (no vendor call, state
unchanged) when a continuation token is already cached; otherwise it
calls the vendor's continuation-token endpoint with the current access
token (the one `getToken` returns) and caches the result; and it fails —
the session error surfaced as "start a session first" territory — when
the vendor refuses to issue one, as it does when no conversation has been
created yet. -/
theorem ensureContinuationToken_contract
    (stA : ClientState) (vA : Vendor) (nowA : Int)
    (stB st₁ : ClientState) (vB : Vendor) (nowB : Int) (atk ctok : String)
    (logB : List Call)
    (stC : ClientState) (vC : Vendor) (nowC : Int)
    (hA : truthyS stA.continuationToken = true)
    (hB0 : truthyS stB.continuationToken = false)
    (hB1 : getToken stB vB.tokenResp nowB false = (.ok atk, st₁, logB))
    (hB2 : vB.contResp = .ok ctok) (hB3 : ctok ≠ "")
    (hC0 : truthyS stC.continuationToken = false)
    (hC1 : vC.contResp = .error ()) :
    ensureContinuationToken stA vA nowA = (.ok (), stA, []) ∧
    ensureContinuationToken stB vB nowB =
      (.ok (), { st₁ with continuationToken := some ctok },
       logB ++ [.contToken ("Bearer " ++ atk)]) ∧
    (ensureContinuationToken stC vC nowC).1 =
      .error "Failed to generate continuation token" := by
  refine ⟨?_, ?_, ?_⟩
  · unfold ensureContinuationToken
    rw [if_pos hA]
  · have hgen : generateContinuationToken stB vB nowB =
        (.ok ctok, { st₁ with continuationToken := some ctok },
         logB ++ [.contToken ("Bearer " ++ atk)]) := by
      unfold generateContinuationToken
      rw [hB1]
      simp [hB2]
    unfold ensureContinuationToken
    rw [if_neg (by rw [hB0]; simp)]
    rw [hgen]
    simp [truthyS, hB3]
  · unfold ensureContinuationToken
    rw [if_neg (by rw [hC0]; simp)]
    rcases hG : getToken stC vC.tokenResp nowC false with ⟨rg, stg, logg⟩
    cases rg with
    | error e =>
      have hgen : generateContinuationToken stC vC nowC =
          (.error "Failed to generate continuation token", stg, logg) := by
        unfold generateContinuationToken
        rw [hG]
      rw [hgen]
    | ok tok =>
      have hgen : generateContinuationToken stC vC nowC =
          (.error "Failed to generate continuation token", stg,
           logg ++ [.contToken ("Bearer " ++ tok)]) := by
        unfold generateContinuationToken
        rw [hG]
        simp [hC1]
      rw [hgen]

theorem ensureContinuationToken_contract_witness :
    ensureContinuationToken ⟨none, none, some "CT"⟩
        ⟨.success "AT", .ok "X", .ok (), .ok⟩ 0 =
      (.ok (), ⟨none, none, some "CT"⟩, []) ∧
    ensureContinuationToken ⟨none, none, none⟩
        ⟨.success "AT", .ok "CT2", .ok (), .ok⟩ 0 =
      (.ok (), { (⟨some "AT", some 3600000, none⟩ : ClientState) with
                  continuationToken := some "CT2" },
       [Call.accessToken] ++ [.contToken ("Bearer " ++ "AT")]) ∧
    (ensureContinuationToken ⟨none, none, none⟩
        ⟨.success "AT", .error (), .ok (), .ok⟩ 0).1 =
      .error "Failed to generate continuation token" :=
  ensureContinuationToken_contract
    ⟨none, none, some "CT"⟩ ⟨.success "AT", .ok "X", .ok (), .ok⟩ 0
    ⟨none, none, none⟩ ⟨some "AT", some 3600000, none⟩
    ⟨.success "AT", .ok "CT2", .ok (), .ok⟩ 0 "AT" "CT2" [Call.accessToken]
    ⟨none, none, none⟩ ⟨.success "AT", .error (), .ok (), .ok⟩ 0
    (by decide) (by decide) rfl rfl (by decide) (by decide) rfl

end Miaw
